import Mathlib

/-!
Shallow embedding of `gisim/classes/character.py` (genius-invokation-gym):
the `CharacterEntity` data model, its constructor, `get_raw_skill`, and
`msg_handler`, together with theorems about the message-driven resolution
protocol described in the specification.

Python integers are modelled as `Int` (no overflow), the priority queue as a
`List Message` whose first element is the head: `queue[0]` is `List.head`,
`get()` drops the head, and `put` is modelled as appending to the back
(message priority keys are not part of the shown source; none of the
properties below depends on where a pushed message is inserted).
-/

namespace Gisim

/-- Modelled from the spec: the owning player identity (two players). -/
inductive PlayerID where
  | P1
  | P2
deriving DecidableEq

/-- Modelled from the spec: a board position (slot index) on one side. -/
abbrev CharPos := Nat

/-- Modelled from the spec: element of damage / attachment; `NONE` is used by
the source for plain physical damage. -/
inductive ElementType where
  | NONE
  | PYRO
  | HYDRO
  | ELECTRO
  | CRYO
  | ANEMO
  | GEO
  | DENDRO
deriving DecidableEq

/-- Modelled from the spec: elemental reaction kind carried by a DealDamage
event; the source only ever constructs `NONE`. -/
inductive ElementalReactionType where
  | NONE
  | OVERLOADED
  | VAPORIZE
deriving DecidableEq

/-- Modelled from the spec: skill category. -/
inductive SkillType where
  | NORMAL_ATTACK
  | ELEMENTAL_SKILL
  | ELEMENTAL_BURST
  | PASSIVE_SKILL
deriving DecidableEq

/-- `Skill.__init__`: name, raw cost (the Python dict is modelled as an
association list), category, and the mutable current cost. -/
structure Skill where
  name : String
  RAW_COST : List (ElementType × Int)
  TYPE : SkillType
  current_cost : List (ElementType × Int)
deriving DecidableEq

/-- Modelled from the spec: `UseSkillMsg` — user position, resolved target
list, and the per-instance responded-entities record (entity uuids). -/
structure UseSkillMsg where
  user_pos : CharPos
  skill_target : List (PlayerID × CharPos)
  responded_entities : List Nat
deriving DecidableEq

/-- Modelled from the spec: `ChangeCharacterMsg` — the (player, position) to
activate, plus the responded-entities record. -/
structure ChangeCharacterMsg where
  target : PlayerID × CharPos
  responded_entities : List Nat
deriving DecidableEq

/-- Modelled from the spec: `DealDamageMsg` — sender, a list of
(target player, target position, element, amount) tuples, the reaction
already determined, plus the responded-entities record. -/
structure DealDamageMsg where
  sender_id : PlayerID
  targets : List (PlayerID × CharPos × ElementType × Int)
  elemental_reaction_triggered : ElementalReactionType
  responded_entities : List Nat
deriving DecidableEq

/-- Modelled from the spec: `CharacterDiedMsg` — sender and the
(player, position) of the fallen character. -/
structure CharacterDiedMsg where
  sender_id : PlayerID
  target : PlayerID × CharPos
  responded_entities : List Nat
deriving DecidableEq

/-- Closed variant type of the messages handled by
`CharacterEntity.msg_handler`. -/
inductive Message where
  | useSkill : UseSkillMsg → Message
  | changeCharacter : ChangeCharacterMsg → Message
  | dealDamage : DealDamageMsg → Message
  | characterDied : CharacterDiedMsg → Message
deriving DecidableEq

/-- The `responded_entities` record of a message, whatever its variant. -/
def Message.responded : Message → List Nat
  | .useSkill m => m.responded_entities
  | .changeCharacter m => m.responded_entities
  | .dealDamage m => m.responded_entities
  | .characterDied m => m.responded_entities

/-- Modelled from the spec: the immutable character card template looked up
in `CHARACTER_CARDS` (element, nations, weapon, skills, base health/power). -/
structure CharacterCard where
  element_type : ElementType
  nations : List String
  weapon_type : String
  skills : List Skill
  health_point : Int
  power : Int
  max_power : Int
deriving DecidableEq

/-- `CharacterEntity` state. `uuid` models `Entity._uuid` (modelled from the
spec: a process-unique opaque id generated at construction); all remaining
fields are the attributes set in `CharacterEntity.__init__`. -/
structure CharacterEntity where
  uuid : Nat
  player_id : PlayerID
  position : CharPos
  name : String
  active : Bool
  alive : Bool
  elemental_infusion : ElementType
  elemental_attachment : ElementType
  id : Nat
  element_type : ElementType
  nations : List String
  weapon_type : String
  skills : List Skill
  health_point : Int
  power : Int
  max_power : Int
deriving DecidableEq

/-- `CharacterEntity.__init__`: the uuid (from `Entity.__init__`) and the
card template (the `CHARACTER_NAME2ID` / `CHARACTER_CARDS` lookup results,
an external read-only database per the spec) are passed as parameters. -/
def CharacterEntity.init (name : String) (player_id : PlayerID)
    (position : CharPos) (uuid : Nat) (char_id : Nat)
    (card : CharacterCard) : CharacterEntity :=
  { uuid := uuid
    player_id := player_id
    position := position
    name := name
    active := false
    alive := true
    elemental_infusion := ElementType.NONE
    elemental_attachment := ElementType.NONE
    id := char_id
    element_type := card.element_type
    nations := card.nations
    weapon_type := card.weapon_type
    skills := card.skills
    health_point := card.health_point
    power := card.power
    max_power := card.max_power }

/-- `self.skill_num = len(self.skills)` (fixed after construction). -/
def CharacterEntity.skill_num (c : CharacterEntity) : Nat := c.skills.length

/-- `self.skill_names = [skill.name for skill in self.skills]`. -/
def CharacterEntity.skill_names (c : CharacterEntity) : List String :=
  c.skills.map Skill.name

/-- `CharacterEntity.get_raw_skill(id, skill_name, skill_type)`.
`Except.error` models a failed `assert`; `Except.ok none` models the Python
implicit `return None` when only `skill_type` is given. -/
def CharacterEntity.get_raw_skill (c : CharacterEntity) (id : Option Int)
    (skill_name : Option String) (skill_type : Option SkillType) :
    Except String (Option Skill) :=
  match id with
  | some i =>
    if h : 0 ≤ i ∧ i ≤ (c.skill_num : Int) - 1 then
      Except.ok (some (c.skills.get ⟨i.toNat, by
        simp only [CharacterEntity.skill_num] at h
        omega⟩))
    else
      Except.error "id should be from 0 to skill_num - 1"
  | none =>
    match skill_name with
    | some nm =>
      if h : nm ∈ c.skill_names then
        Except.ok (some (c.skills.get ⟨c.skill_names.indexOf nm, by
          have hlen : c.skill_names.length = c.skills.length := by
            simp [CharacterEntity.skill_names]
          have := List.indexOf_lt_length.mpr h
          omega⟩))
      else
        Except.error "the requested skill does not exist in the skill set"
    | none =>
      match skill_type with
      | some _ => Except.ok none
      | none => Except.error "Should provide either skill id or its name"

/-- Result of the `DealDamageMsg` target loop in `msg_handler`: the updated
character, the messages pushed (one `CharacterDiedMsg` per death trigger),
the uuids appended to the message's `responded_entities` (one per matching
tuple, in order), and the `updated` flag. -/
structure DamageFold where
  char : CharacterEntity
  pushed : List Message
  responded : List Nat
  updated : Bool
deriving DecidableEq

/-- The `for target_id, target_pos, element_type, dmg_val in msg.targets`
loop of `msg_handler`: for every tuple addressed to this character, subtract
`min(health_point, dmg_val)`, and when the health is 0 afterwards set
`alive = false` and push a `CharacterDiedMsg`. -/
def applyTargets (c : CharacterEntity) :
    List (PlayerID × CharPos × ElementType × Int) → DamageFold
  | [] => ⟨c, [], [], false⟩
  | (target_id, target_pos, _, dmg_val) :: ts =>
    if c.player_id = target_id ∧ c.position = target_pos then
      if c.health_point - min c.health_point dmg_val = 0 then
        let r := applyTargets
          { c with health_point := c.health_point - min c.health_point dmg_val
                   alive := false } ts
        ⟨r.char,
         Message.characterDied ⟨c.player_id, (c.player_id, c.position), []⟩
           :: r.pushed,
         c.uuid :: r.responded, true⟩
      else
        let r := applyTargets
          { c with health_point := c.health_point - min c.health_point dmg_val } ts
        ⟨r.char, r.pushed, c.uuid :: r.responded, true⟩
    else
      applyTargets c ts

/-- `CharacterEntity.msg_handler(msg_queue)`. The queue is a list whose first
element is the head; `none` models the Python exceptions (peeking an empty
queue, or indexing `skill_target[0]` of an empty target list). Returns the
updated character, the updated queue, and the `updated` flag. -/
def msg_handler (c : CharacterEntity) (msg_queue : List Message) :
    Option (CharacterEntity × List Message × Bool) :=
  match msg_queue with
  | [] => none
  | msg :: rest =>
    if c.uuid ∈ msg.responded then
      some (c, msg :: rest, false)
    else
      match msg with
      | .useSkill m =>
        if m.user_pos = c.position then
          match m.skill_target with
          | [] => none
          | (target_player, target_pos) :: _ =>
            some (c,
              rest ++ [Message.dealDamage
                ⟨c.player_id,
                 [(target_player, target_pos, ElementType.NONE, 2)],
                 ElementalReactionType.NONE, []⟩],
              true)
        else
          some (c, msg :: rest, false)
      | .changeCharacter m =>
        if c.player_id = m.target.1 then
          if c.position = m.target.2 then
            some ({ c with active := true },
              Message.changeCharacter
                { m with responded_entities := m.responded_entities ++ [c.uuid] }
                :: rest,
              true)
          else if c.active then
            some ({ c with active := false },
              Message.changeCharacter
                { m with responded_entities := m.responded_entities ++ [c.uuid] }
                :: rest,
              true)
          else
            some (c, msg :: rest, false)
        else
          some (c, msg :: rest, false)
      | .dealDamage m =>
        let r := applyTargets c m.targets
        some (r.char,
          Message.dealDamage
            { m with responded_entities := m.responded_entities ++ r.responded }
            :: rest ++ r.pushed,
          r.updated)
      | .characterDied _ =>
        some (c, msg :: rest, false)

/-- A character handles a sequence of `DealDamageMsg` events, each presented
to it at the head of the queue, threading the character state. -/
def handleSeq (c : CharacterEntity) : List DealDamageMsg → CharacterEntity
  | [] => c
  | m :: ms =>
    match msg_handler c [Message.dealDamage m] with
    | some r => handleSeq r.1 ms
    | none => c

/-- Each character of the list in turn handles the head of the (evolving)
queue, as the external driver of one resolution pass does. -/
def handleAll : List CharacterEntity → List Message →
    List CharacterEntity × List Message
  | [], q => ([], q)
  | c :: cs, q =>
    match msg_handler c q with
    | some r =>
      let t := handleAll cs r.2.1
      (r.1 :: t.1, t.2)
    | none => (c :: cs, q)

/-- The damage amounts of the tuples of a target list that are addressed to
this character (matching player and position), in order. -/
def addressedAmounts (c : CharacterEntity)
    (targets : List (PlayerID × CharPos × ElementType × Int)) : List Int :=
  targets.filterMap fun t =>
    if c.player_id = t.1 ∧ c.position = t.2.1 then some t.2.2.2 else none

/-- Whether a message is a `CharacterDiedMsg`. -/
def isCharacterDied : Message → Bool
  | .characterDied _ => true
  | _ => false

/-- Number of `CharacterDiedMsg` entries in a queue. -/
def countCharacterDied (q : List Message) : Nat :=
  (q.filter isCharacterDied).length

/-! Concrete instances used by the closed theorems and witnesses below. -/

/-- A small concrete card template with two skills. -/
def cardW : CharacterCard :=
  ⟨ElementType.PYRO, [], "sword",
   [⟨"Strike", [(ElementType.NONE, 2)], .NORMAL_ATTACK, [(ElementType.NONE, 2)]⟩,
    ⟨"Blaze", [(ElementType.PYRO, 3)], .ELEMENTAL_SKILL, [(ElementType.PYRO, 3)]⟩],
   10, 0, 3⟩

/-- Freshly constructed character of player 1 at position 0 (uuid 0). -/
def cW : CharacterEntity := CharacterEntity.init "A" .P1 0 0 7 cardW

/-- Freshly constructed character of player 1 at position 1 (uuid 1). -/
def cW1 : CharacterEntity := CharacterEntity.init "B" .P1 1 1 7 cardW

/-- Freshly constructed character of player 2 at position 0 (uuid 2). -/
def cWopp : CharacterEntity := CharacterEntity.init "C" .P2 0 2 7 cardW

/-- Freshly constructed character of player 2 at position 1 (uuid 3). -/
def cWopp1 : CharacterEntity := CharacterEntity.init "D" .P2 1 3 7 cardW

/-- A character that is already dead: health 0, alive false. -/
def deadW : CharacterEntity := { cW with health_point := 0, alive := false }

/-- A fresh DealDamage event with a single 5-damage tuple addressed to
player 1, position 0. -/
def mDeadW : DealDamageMsg := ⟨.P2, [(.P1, 0, ElementType.NONE, 5)], .NONE, []⟩

/-- The queue produced when `deadW` handles `mDeadW`. -/
def qAfterDeadW : List Message :=
  [Message.dealDamage { mDeadW with responded_entities := [0] },
   Message.characterDied ⟨.P1, (.P1, 0), []⟩]

/-- A fresh UseSkill event at position 0 with two resolved targets. -/
def mUseW : UseSkillMsg := ⟨0, [(.P2, 0), (.P2, 1)], []⟩

/-- A fresh UseSkill event at position 1 with one resolved target. -/
def mUseW1 : UseSkillMsg := ⟨1, [(.P2, 1)], []⟩

/-!  ## Claim theorems  -/

/-- C8: for every message whose `responded_entities` already contains this
entity's uuid, `msg_handler` reports no update and returns the character and
the queue unchanged. -/
theorem C8_already_responded_noop (c : CharacterEntity) (msg : Message)
    (rest : List Message) (h : c.uuid ∈ msg.responded) :
    msg_handler c (msg :: rest) = some (c, msg :: rest, false) := by
  simp [msg_handler, h]

/-- Witness for C8 at a concrete character and message. -/
theorem C8_witness :
    msg_handler cW
        [Message.dealDamage ⟨.P2, [(.P1, 0, ElementType.NONE, 5)], .NONE, [0]⟩]
      = some (cW,
          [Message.dealDamage ⟨.P2, [(.P1, 0, ElementType.NONE, 5)], .NONE, [0]⟩],
          false) :=
  C8_already_responded_noop cW
    (Message.dealDamage ⟨.P2, [(.P1, 0, ElementType.NONE, 5)], .NONE, [0]⟩)
    [] (by decide)

/-- C10: calling `get_raw_skill` with only a `skill_type` selector passes
every assertion and silently returns `None` (no unknown-skill failure). -/
theorem C10_skill_type_silent_none (c : CharacterEntity) (st : SkillType) :
    c.get_raw_skill none none (some st) = Except.ok none := rfl

/-- C1: the code contradicts the claim — a dead character (health 0,
alive false) handling a fresh DealDamage event addressed to it does keep
`health_point = 0`, but the `health_point == 0` branch fires again and a
duplicate CharacterDied event is enqueued. -/
theorem C1_dead_character_duplicate_death :
    msg_handler deadW [Message.dealDamage mDeadW]
        = some (deadW, qAfterDeadW, true)
      ∧ countCharacterDied [Message.dealDamage mDeadW] = 0
      ∧ countCharacterDied qAfterDeadW = 1
      ∧ deadW.health_point = 0
      ∧ deadW.alive = false := by
  refine ⟨by decide, by decide, by decide, by decide, by decide⟩

/-- C4: a fresh UseSkill event at the head of the queue is consumed exactly
by a character whose position equals the event's user position — that
handling removes the event and appends exactly one new DealDamage event and
nothing else — while a character at any other position leaves the queue
unchanged and reports no update. -/
theorem C4_use_skill_consumption (c : CharacterEntity) (m : UseSkillMsg)
    (rest : List Message) (t : PlayerID × CharPos)
    (ts : List (PlayerID × CharPos))
    (hfresh : c.uuid ∉ m.responded_entities)
    (ht : m.skill_target = t :: ts) :
    (m.user_pos = c.position →
      msg_handler c (Message.useSkill m :: rest)
        = some (c, rest ++ [Message.dealDamage
            ⟨c.player_id, [(t.1, t.2, ElementType.NONE, 2)],
             ElementalReactionType.NONE, []⟩], true))
    ∧ (m.user_pos ≠ c.position →
      msg_handler c (Message.useSkill m :: rest)
        = some (c, Message.useSkill m :: rest, false)) := by
  obtain ⟨tp, tpos⟩ := t
  constructor
  · intro hpos
    simp [msg_handler, Message.responded, hfresh, hpos, ht]
  · intro hpos
    simp [msg_handler, Message.responded, hfresh, hpos]

/-- Witness for C4: the character at the user position consumes the event
and pushes one DealDamage event. -/
theorem C4_witness :
    msg_handler cW (Message.useSkill mUseW :: [])
      = some (cW, [] ++ [Message.dealDamage
          ⟨cW.player_id, [((.P2 : PlayerID), (0 : CharPos), ElementType.NONE, 2)],
           ElementalReactionType.NONE, []⟩], true) :=
  (C4_use_skill_consumption cW mUseW [] (.P2, 0) [(.P2, 1)] (by decide) rfl).1 rfl

/-- C5 counterexample: the UseSkill event `mUseW` resolves two targets, but
the single DealDamage event pushed on consumption carries a damage tuple for
the first target only — target (P2, 1) appears in `skill_target` and in no
damage tuple. -/
theorem C5_counterexample :
    msg_handler cW [Message.useSkill mUseW]
        = some (cW,
            [Message.dealDamage
              ⟨.P1, [(.P2, 0, ElementType.NONE, 2)],
               ElementalReactionType.NONE, []⟩], true)
      ∧ ((PlayerID.P2, (1 : CharPos)) ∈ mUseW.skill_target)
      ∧ ([((PlayerID.P2 : PlayerID), (0 : CharPos), ElementType.NONE, (2 : Int))].map
            fun t => (t.1, t.2.1)) = [(PlayerID.P2, (0 : CharPos))]
      ∧ ((PlayerID.P2, (1 : CharPos)) ∉
          ([((PlayerID.P2 : PlayerID), (0 : CharPos), ElementType.NONE, (2 : Int))].map
            fun t => (t.1, t.2.1))) := by
  refine ⟨by decide, by decide, by decide, by decide⟩

/-- C5 (amended): when a character consumes a relevant fresh UseSkill event,
the single DealDamage event it pushes carries exactly one damage tuple —
built from the FIRST entry of the event's resolved target list, with element
NONE and fixed amount 2 — and no elemental reaction; the remaining resolved
targets are dropped. -/
theorem C5_first_target_only (c : CharacterEntity) (m : UseSkillMsg)
    (rest : List Message) (t : PlayerID × CharPos)
    (ts : List (PlayerID × CharPos))
    (hfresh : c.uuid ∉ m.responded_entities)
    (hpos : m.user_pos = c.position)
    (ht : m.skill_target = t :: ts) :
    msg_handler c (Message.useSkill m :: rest)
      = some (c, rest ++ [Message.dealDamage
          ⟨c.player_id, [(t.1, t.2, ElementType.NONE, 2)],
           ElementalReactionType.NONE, []⟩], true) := by
  obtain ⟨tp, tpos⟩ := t
  simp [msg_handler, Message.responded, hfresh, hpos, ht]

/-- Witness for C5 (amended) at a concrete character and event. -/
theorem C5_witness :
    msg_handler cW1 (Message.useSkill mUseW1 :: [])
      = some (cW1, [] ++ [Message.dealDamage
          ⟨cW1.player_id, [((.P2 : PlayerID), (1 : CharPos), ElementType.NONE, 2)],
           ElementalReactionType.NONE, []⟩], true) :=
  C5_first_target_only cW1 mUseW1 [] (.P2, 1) [] (by decide) rfl rfl

/-- C9: the relevance test for a UseSkill event compares only board position,
never the owning player — two fresh characters with different `player_id`
but the same position (equal to the event's user position) each consume the
event, and each stamps its own `player_id` as the `sender_id` of the pushed
DealDamage event. -/
theorem C9_position_only_relevance (c₁ c₂ : CharacterEntity)
    (m : UseSkillMsg) (rest : List Message) (t : PlayerID × CharPos)
    (ts : List (PlayerID × CharPos))
    (_hne : c₁.player_id ≠ c₂.player_id)
    (h1 : m.user_pos = c₁.position) (h2 : m.user_pos = c₂.position)
    (hf1 : c₁.uuid ∉ m.responded_entities)
    (hf2 : c₂.uuid ∉ m.responded_entities)
    (ht : m.skill_target = t :: ts) :
    msg_handler c₁ (Message.useSkill m :: rest)
        = some (c₁, rest ++ [Message.dealDamage
            ⟨c₁.player_id, [(t.1, t.2, ElementType.NONE, 2)],
             ElementalReactionType.NONE, []⟩], true)
      ∧ msg_handler c₂ (Message.useSkill m :: rest)
        = some (c₂, rest ++ [Message.dealDamage
            ⟨c₂.player_id, [(t.1, t.2, ElementType.NONE, 2)],
             ElementalReactionType.NONE, []⟩], true) := by
  obtain ⟨tp, tpos⟩ := t
  constructor
  · simp [msg_handler, Message.responded, hf1, h1, ht]
  · simp [msg_handler, Message.responded, hf2, h2, ht]

/-- Witness for C9: a player-2 character at the same position as the
player-1 character consumes the player-1 UseSkill event all the same. -/
theorem C9_witness :
    msg_handler cW (Message.useSkill mUseW :: [])
        = some (cW, [] ++ [Message.dealDamage
            ⟨cW.player_id, [((.P2 : PlayerID), (0 : CharPos), ElementType.NONE, 2)],
             ElementalReactionType.NONE, []⟩], true)
      ∧ msg_handler cWopp (Message.useSkill mUseW :: [])
        = some (cWopp, [] ++ [Message.dealDamage
            ⟨cWopp.player_id, [((.P2 : PlayerID), (0 : CharPos), ElementType.NONE, 2)],
             ElementalReactionType.NONE, []⟩], true) :=
  C9_position_only_relevance cW cWopp mUseW [] (.P2, 0) [(.P2, 1)]
    (by decide) rfl rfl (by decide) (by decide) rfl

/-- C7: `get_raw_skill` with an index selector returns the skill at that
index exactly when `0 <= id <= skill_num - 1` and fails (assertion error)
for every out-of-range index; with a name selector it returns the skill of
that name exactly when the name is among the character's skill names and
fails for every unknown name. -/
theorem C7_selector_checked (c : CharacterEntity) (i : Int) (nm : String)
    (st : Option SkillType) :
    ((0 ≤ i ∧ i ≤ (c.skill_num : Int) - 1) →
      ∃ hlt : i.toNat < c.skills.length,
        c.get_raw_skill (some i) none st
          = Except.ok (some (c.skills.get ⟨i.toNat, hlt⟩)))
    ∧ (¬(0 ≤ i ∧ i ≤ (c.skill_num : Int) - 1) →
      ∃ e, c.get_raw_skill (some i) none st = Except.error e)
    ∧ (nm ∈ c.skill_names →
      ∃ s, c.get_raw_skill none (some nm) st = Except.ok (some s)
        ∧ s ∈ c.skills ∧ s.name = nm)
    ∧ (nm ∉ c.skill_names →
      ∃ e, c.get_raw_skill none (some nm) st = Except.error e) := by
  have hlen : c.skill_names.length = c.skills.length := by
    simp [CharacterEntity.skill_names]
  refine ⟨?_, ?_, ?_, ?_⟩
  · intro h
    have hlt : i.toNat < c.skills.length := by
      have h1 := h.1
      have h2 := h.2
      simp only [CharacterEntity.skill_num] at h2
      omega
    exact ⟨hlt, by simp only [CharacterEntity.get_raw_skill, dif_pos h]⟩
  · intro h
    exact ⟨"id should be from 0 to skill_num - 1",
      by simp only [CharacterEntity.get_raw_skill, dif_neg h]⟩
  · intro h
    have hidx : c.skill_names.indexOf nm < c.skill_names.length :=
      List.indexOf_lt_length.mpr h
    have hidx' : c.skill_names.indexOf nm < c.skills.length := by omega
    refine ⟨c.skills.get ⟨c.skill_names.indexOf nm, hidx'⟩,
      by simp only [CharacterEntity.get_raw_skill, dif_pos h],
      List.get_mem _ _ _, ?_⟩
    have hnm := List.getElem_indexOf (a := nm) hidx
    rw [List.get_eq_getElem]
    simp only [CharacterEntity.skill_names, List.getElem_map] at hnm
    simp only [CharacterEntity.skill_names]
    exact hnm
  · intro h
    exact ⟨"the requested skill does not exist in the skill set",
      by simp only [CharacterEntity.get_raw_skill, dif_neg h]⟩

/-- Witness for C7: the four selector outcomes at a concrete character. -/
theorem C7_witness :
    (∃ hlt : (0 : Int).toNat < cW.skills.length,
      cW.get_raw_skill (some 0) none none
        = Except.ok (some (cW.skills.get ⟨(0 : Int).toNat, hlt⟩)))
    ∧ (∃ e, cW.get_raw_skill (some 5) none none = Except.error e)
    ∧ (∃ s, cW.get_raw_skill none (some "Blaze") none = Except.ok (some s)
        ∧ s ∈ cW.skills ∧ s.name = "Blaze")
    ∧ (∃ e, cW.get_raw_skill none (some "Frost") none = Except.error e) :=
  ⟨(C7_selector_checked cW 0 "Blaze" none).1 (by decide),
   (C7_selector_checked cW 5 "Blaze" none).2.1 (by decide),
   (C7_selector_checked cW 0 "Blaze" none).2.2.1 (by decide),
   (C7_selector_checked cW 0 "Frost" none).2.2.2 (by decide)⟩

/-! ## Damage accumulation (C2) -/

/-- Sum of a list of non-negative integers is non-negative. -/
lemma intSum_nonneg (l : List Int) (h : ∀ x ∈ l, 0 ≤ x) : 0 ≤ l.sum := by
  induction l with
  | nil => simp
  | cons a l ih =>
    simp only [List.sum_cons]
    have ha := h a (by simp)
    have hl := ih fun x hx => h x (by simp [hx])
    omega

/-- `addressedAmounts` depends only on the character's player and position. -/
lemma addressedAmounts_congr (c c' : CharacterEntity)
    (h1 : c'.player_id = c.player_id) (h2 : c'.position = c.position)
    (ts : List (PlayerID × CharPos × ElementType × Int)) :
    addressedAmounts c' ts = addressedAmounts c ts := by
  simp [addressedAmounts, h1, h2]

/-- Unfolding `applyTargets` on a matching tuple that drops health to 0. -/
lemma applyTargets_cons_dead (c : CharacterEntity) (tid : PlayerID)
    (tpos : CharPos) (e : ElementType) (d : Int)
    (ts : List (PlayerID × CharPos × ElementType × Int))
    (hm : c.player_id = tid ∧ c.position = tpos)
    (hz : c.health_point - min c.health_point d = 0) :
    (applyTargets c ((tid, tpos, e, d) :: ts)).char
      = (applyTargets
          { c with health_point := c.health_point - min c.health_point d
                   alive := false } ts).char := by
  simp [applyTargets, hm, hz]

/-- Unfolding `applyTargets` on a matching tuple that leaves health
positive. -/
lemma applyTargets_cons_live (c : CharacterEntity) (tid : PlayerID)
    (tpos : CharPos) (e : ElementType) (d : Int)
    (ts : List (PlayerID × CharPos × ElementType × Int))
    (hm : c.player_id = tid ∧ c.position = tpos)
    (hz : ¬(c.health_point - min c.health_point d = 0)) :
    (applyTargets c ((tid, tpos, e, d) :: ts)).char
      = (applyTargets
          { c with health_point := c.health_point - min c.health_point d }
          ts).char := by
  simp [applyTargets, hm, hz]

/-- Unfolding `applyTargets` on a tuple not addressed to this character. -/
lemma applyTargets_cons_skip (c : CharacterEntity) (tid : PlayerID)
    (tpos : CharPos) (e : ElementType) (d : Int)
    (ts : List (PlayerID × CharPos × ElementType × Int))
    (hm : ¬(c.player_id = tid ∧ c.position = tpos)) :
    applyTargets c ((tid, tpos, e, d) :: ts) = applyTargets c ts := by
  simp [applyTargets, hm]

/-- Core property of the DealDamage target loop: given non-negative
addressed amounts, the resulting health is the clamped difference, the
alive flag tracks positivity of health, and player, position and uuid are
unchanged. -/
lemma applyTargets_spec (ts : List (PlayerID × CharPos × ElementType × Int))
    (c : CharacterEntity)
    (hh : 0 ≤ c.health_point)
    (ha : c.alive = decide (0 < c.health_point))
    (hnn : ∀ d ∈ addressedAmounts c ts, 0 ≤ d) :
    (applyTargets c ts).char.health_point
        = max 0 (c.health_point - (addressedAmounts c ts).sum)
      ∧ (applyTargets c ts).char.alive
        = decide (0 < (applyTargets c ts).char.health_point)
      ∧ (applyTargets c ts).char.player_id = c.player_id
      ∧ (applyTargets c ts).char.position = c.position
      ∧ (applyTargets c ts).char.uuid = c.uuid := by
  induction ts generalizing c with
  | nil =>
    simp only [applyTargets, addressedAmounts, List.filterMap_nil,
      List.sum_nil]
    exact ⟨by omega, ha, trivial, trivial, trivial⟩
  | cons t ts ih =>
    obtain ⟨tid, tpos, e, d⟩ := t
    by_cases hm : c.player_id = tid ∧ c.position = tpos
    · have haddr : addressedAmounts c ((tid, tpos, e, d) :: ts)
          = d :: addressedAmounts c ts := by
        simp [addressedAmounts, hm.1, hm.2]
      have hd : 0 ≤ d := hnn d (by rw [haddr]; exact List.mem_cons_self _ _)
      have hnn' : ∀ x ∈ addressedAmounts c ts, 0 ≤ x := fun x hx =>
        hnn x (by rw [haddr]; exact List.mem_cons_of_mem _ hx)
      have hS : 0 ≤ (addressedAmounts c ts).sum := intSum_nonneg _ hnn'
      by_cases hz : c.health_point - min c.health_point d = 0
      · set c2 : CharacterEntity :=
          { c with health_point := c.health_point - min c.health_point d
                   alive := false } with hc2
        have hcong := addressedAmounts_congr c c2 rfl rfl ts
        have hh2 : 0 ≤ c2.health_point := by
          simp only [hc2]
          omega
        have ha2 : c2.alive = decide (0 < c2.health_point) := by
          simp only [hc2]
          simp [hz]
        have hnn2 : ∀ x ∈ addressedAmounts c2 ts, 0 ≤ x := by
          rw [hcong]; exact hnn'
        obtain ⟨b1, b2, b3, b4, b5⟩ := ih c2 hh2 ha2 hnn2
        rw [applyTargets_cons_dead c tid tpos e d ts hm hz, ← hc2]
        refine ⟨?_, b2, b3, b4, b5⟩
        rw [b1, hcong, haddr]
        simp only [List.sum_cons, hc2]
        omega
      · set c2 : CharacterEntity :=
          { c with health_point := c.health_point - min c.health_point d }
          with hc2
        have hcong := addressedAmounts_congr c c2 rfl rfl ts
        have hh2 : 0 ≤ c2.health_point := by
          simp only [hc2]
          omega
        have ha2 : c2.alive = decide (0 < c2.health_point) := by
          simp only [hc2]
          rw [ha]
          have hpos : 0 < c.health_point - min c.health_point d := by omega
          have hpos' : 0 < c.health_point := by omega
          simp [hpos, hpos']
        have hnn2 : ∀ x ∈ addressedAmounts c2 ts, 0 ≤ x := by
          rw [hcong]; exact hnn'
        obtain ⟨b1, b2, b3, b4, b5⟩ := ih c2 hh2 ha2 hnn2
        rw [applyTargets_cons_live c tid tpos e d ts hm hz, ← hc2]
        refine ⟨?_, b2, b3, b4, b5⟩
        rw [b1, hcong, haddr]
        simp only [List.sum_cons, hc2]
        omega
    · have haddr : addressedAmounts c ((tid, tpos, e, d) :: ts)
          = addressedAmounts c ts := by
        simp only [addressedAmounts, List.filterMap_cons]
        rw [if_neg hm]
      have hnn' : ∀ x ∈ addressedAmounts c ts, 0 ≤ x := fun x hx =>
        hnn x (by rw [haddr]; exact hx)
      rw [applyTargets_cons_skip c tid tpos e d ts hm, haddr]
      exact ih c hh ha hnn'

/-- `msg_handler` on a fresh DealDamage event at the head of the queue runs
the target loop, leaves the (mutated) event in the queue and appends the
pushed CharacterDied events. -/
lemma msg_handler_dealDamage (c : CharacterEntity) (m : DealDamageMsg)
    (rest : List Message) (hf : c.uuid ∉ m.responded_entities) :
    msg_handler c (Message.dealDamage m :: rest)
      = some ((applyTargets c m.targets).char,
          Message.dealDamage
            { m with responded_entities :=
                m.responded_entities ++ (applyTargets c m.targets).responded }
            :: rest ++ (applyTargets c m.targets).pushed,
          (applyTargets c m.targets).updated) := by
  simp [msg_handler, Message.responded, hf]

/-- One step of `handleSeq` on a fresh event. -/
lemma handleSeq_cons (c : CharacterEntity) (m : DealDamageMsg)
    (ms : List DealDamageMsg) (hf : c.uuid ∉ m.responded_entities) :
    handleSeq c (m :: ms) = handleSeq (applyTargets c m.targets).char ms := by
  rw [handleSeq, msg_handler_dealDamage c m [] hf]

/-- Folding `applyTargets_spec` over a sequence of fresh DealDamage
events. -/
lemma handleSeq_spec (ms : List DealDamageMsg) (c : CharacterEntity)
    (hh : 0 ≤ c.health_point)
    (ha : c.alive = decide (0 < c.health_point))
    (hfresh : ∀ m ∈ ms, c.uuid ∉ m.responded_entities)
    (hnn : ∀ m ∈ ms, ∀ d ∈ addressedAmounts c m.targets, 0 ≤ d) :
    (handleSeq c ms).health_point
        = max 0 (c.health_point
            - (ms.map fun m => (addressedAmounts c m.targets).sum).sum)
      ∧ (handleSeq c ms).alive = decide (0 < (handleSeq c ms).health_point)
      ∧ (handleSeq c ms).player_id = c.player_id
      ∧ (handleSeq c ms).position = c.position
      ∧ (handleSeq c ms).uuid = c.uuid := by
  induction ms generalizing c with
  | nil =>
    simp only [handleSeq, List.map_nil, List.sum_nil]
    exact ⟨by omega, ha, trivial, trivial, trivial⟩
  | cons m ms ih =>
    have hf := hfresh m (by simp)
    rw [handleSeq_cons c m ms hf]
    obtain ⟨a1, a2, a3, a4, a5⟩ :=
      applyTargets_spec m.targets c hh ha (hnn m (by simp))
    set c1 := (applyTargets c m.targets).char with hc1
    have hfresh1 : ∀ m' ∈ ms, c1.uuid ∉ m'.responded_entities := by
      intro m' hm'
      rw [a5]
      exact hfresh m' (by simp [hm'])
    have hnn1 : ∀ m' ∈ ms, ∀ d ∈ addressedAmounts c1 m'.targets, 0 ≤ d := by
      intro m' hm' d hd
      rw [addressedAmounts_congr c c1 a3 a4] at hd
      exact hnn m' (by simp [hm']) d hd
    have hh1 : 0 ≤ c1.health_point := by rw [a1]; omega
    obtain ⟨b1, b2, b3, b4, b5⟩ := ih c1 hh1 a2 hfresh1 hnn1
    have hmapeq : (ms.map fun m' => (addressedAmounts c1 m'.targets).sum)
        = ms.map fun m' => (addressedAmounts c m'.targets).sum :=
      List.map_congr_left fun m' _ => by
        rw [addressedAmounts_congr c c1 a3 a4]
    have hs1 : 0 ≤ (addressedAmounts c m.targets).sum :=
      intSum_nonneg _ (hnn m (by simp))
    have hS : 0 ≤ (ms.map fun m' => (addressedAmounts c m'.targets).sum).sum := by
      apply intSum_nonneg
      intro x hx
      simp only [List.mem_map] at hx
      obtain ⟨m', hm', rfl⟩ := hx
      exact intSum_nonneg _ (hnn m' (by simp [hm']))
    refine ⟨?_, b2, by rw [b3, a3], by rw [b4, a4], by rw [b5, a5]⟩
    rw [b1, hmapeq, a1]
    simp only [List.map_cons, List.sum_cons]
    omega

/-- C2: starting from a live character with positive health, handling any
sequence of fresh DealDamage events whose addressed amounts are
non-negative yields, after every prefix, health equal to
`max 0 (initial - sum of addressed amounts so far)` — hence never
negative — and an alive flag equal to `health > 0`. -/
theorem C2_damage_accumulation (c : CharacterEntity)
    (ms : List DealDamageMsg)
    (hh : 0 < c.health_point) (ha : c.alive = true)
    (hfresh : ∀ m ∈ ms, c.uuid ∉ m.responded_entities)
    (hnn : ∀ m ∈ ms, ∀ d ∈ addressedAmounts c m.targets, 0 ≤ d)
    (k : Nat) :
    (handleSeq c (ms.take k)).health_point
        = max 0 (c.health_point
            - ((ms.take k).map fun m => (addressedAmounts c m.targets).sum).sum)
      ∧ 0 ≤ (handleSeq c (ms.take k)).health_point
      ∧ (handleSeq c (ms.take k)).alive
        = decide (0 < (handleSeq c (ms.take k)).health_point) := by
  have hsub : ∀ m ∈ ms.take k, m ∈ ms := by
    intro m hm
    have hsplit := List.take_append_drop k ms
    rw [← hsplit]
    exact List.mem_append_left _ hm
  have ha' : c.alive = decide (0 < c.health_point) := by
    rw [ha]
    exact (decide_eq_true hh).symm
  obtain ⟨h1, h2, _, _, _⟩ := handleSeq_spec (ms.take k) c (le_of_lt hh) ha'
    (fun m hm => hfresh m (hsub m hm)) (fun m hm => hnn m (hsub m hm))
  exact ⟨h1, by rw [h1]; omega, h2⟩

/-- A live character of player 1 at the active position with 10 health. -/
def cWact : CharacterEntity := { cW with active := true }

/-- A fresh DealDamage event dealing 2 damage to player 1, position 0. -/
def mTwoDmg : DealDamageMsg := ⟨.P2, [(.P1, 0, ElementType.NONE, 2)], .NONE, []⟩

/-- Witness for C2: two 2-damage events on a 10-health character. -/
theorem C2_witness :
    (handleSeq cWact ([mTwoDmg, mTwoDmg].take 2)).health_point
        = max 0 (cWact.health_point
            - (([mTwoDmg, mTwoDmg].take 2).map
                fun m => (addressedAmounts cWact m.targets).sum).sum)
      ∧ 0 ≤ (handleSeq cWact ([mTwoDmg, mTwoDmg].take 2)).health_point
      ∧ (handleSeq cWact ([mTwoDmg, mTwoDmg].take 2)).alive
        = decide (0 < (handleSeq cWact ([mTwoDmg, mTwoDmg].take 2)).health_point) :=
  C2_damage_accumulation cWact [mTwoDmg, mTwoDmg] (by decide) (by decide)
    (by decide) (by decide) 2
/-! ## ChangeActiveCharacter handling (C3, C6) -/

/-- Pointwise relation between a character's state before and after it has
handled a ChangeActiveCharacter event addressed to player `P`, position
`X`: identity, position, health and alive flag are untouched; a character
of player `P` ends with `active` true exactly when it sits at `X`; a
character of the other player is completely unchanged. -/
def ChangeRel (P : PlayerID) (X : CharPos) (c c' : CharacterEntity) : Prop :=
  c'.uuid = c.uuid ∧ c'.player_id = c.player_id ∧ c'.position = c.position
    ∧ c'.health_point = c.health_point ∧ c'.alive = c.alive
    ∧ (c.player_id = P → c'.active = decide (c.position = X))
    ∧ (c.player_id ≠ P → c' = c)

/-- Core property of a full pass of a ChangeActiveCharacter event over a
list of characters with distinct uuids, none of which has responded yet:
the output characters are pointwise `ChangeRel`-related to the inputs, and
the queue still holds exactly the (responded-extended) event. -/
lemma handleAll_change (P : PlayerID) (X : CharPos)
    (chars : List CharacterEntity) :
    ∀ resp0 : List Nat,
      chars.Pairwise (fun a b => a.uuid ≠ b.uuid) →
      (∀ c ∈ chars, c.uuid ∉ resp0) →
      List.Forall₂ (ChangeRel P X) chars
          (handleAll chars [Message.changeCharacter ⟨(P, X), resp0⟩]).1
        ∧ ∃ resp,
          (handleAll chars [Message.changeCharacter ⟨(P, X), resp0⟩]).2
            = [Message.changeCharacter ⟨(P, X), resp⟩] := by
  induction chars with
  | nil =>
    intro resp0 hp hf
    exact ⟨List.Forall₂.nil, resp0, rfl⟩
  | cons c cs ih =>
    intro resp0 hp hf
    have hcu : c.uuid ∉ resp0 := hf c (by simp)
    have hpcs : cs.Pairwise (fun a b => a.uuid ≠ b.uuid) :=
      (List.pairwise_cons.mp hp).2
    have hcne : ∀ b ∈ cs, c.uuid ≠ b.uuid := (List.pairwise_cons.mp hp).1
    have hfext : ∀ b ∈ cs, b.uuid ∉ resp0 ++ [c.uuid] := by
      intro b hb
      simp only [List.mem_append, List.mem_singleton]
      push_neg
      exact ⟨hf b (by simp [hb]), fun he => (hcne b hb) he.symm⟩
    by_cases h1 : c.player_id = P
    · by_cases h2 : c.position = X
      · have hstep :
            msg_handler c [Message.changeCharacter ⟨(P, X), resp0⟩]
              = some ({ c with active := true },
                  [Message.changeCharacter ⟨(P, X), resp0 ++ [c.uuid]⟩],
                  true) := by
          simp [msg_handler, Message.responded, hcu, h1, h2]
        obtain ⟨ihrel, resp, ihq⟩ := ih (resp0 ++ [c.uuid]) hpcs hfext
        simp only [handleAll, hstep]
        refine ⟨List.Forall₂.cons ?_ ihrel, resp, ihq⟩
        exact ⟨rfl, rfl, rfl, rfl, rfl, fun _ => by simp [h2],
          fun hne => absurd h1 hne⟩
      · cases hac : c.active with
        | true =>
          have hstep :
              msg_handler c [Message.changeCharacter ⟨(P, X), resp0⟩]
                = some ({ c with active := false },
                    [Message.changeCharacter ⟨(P, X), resp0 ++ [c.uuid]⟩],
                    true) := by
            simp [msg_handler, Message.responded, hcu, h1, h2, hac]
          obtain ⟨ihrel, resp, ihq⟩ := ih (resp0 ++ [c.uuid]) hpcs hfext
          simp only [handleAll, hstep]
          refine ⟨List.Forall₂.cons ?_ ihrel, resp, ihq⟩
          exact ⟨rfl, rfl, rfl, rfl, rfl, fun _ => by simp [h2],
            fun hne => absurd h1 hne⟩
        | false =>
          have hstep :
              msg_handler c [Message.changeCharacter ⟨(P, X), resp0⟩]
                = some (c, [Message.changeCharacter ⟨(P, X), resp0⟩],
                    false) := by
            simp [msg_handler, Message.responded, hcu, h1, h2, hac]
          obtain ⟨ihrel, resp, ihq⟩ := ih resp0 hpcs
            (fun b hb => hf b (by simp [hb]))
          simp only [handleAll, hstep]
          refine ⟨List.Forall₂.cons ?_ ihrel, resp, ihq⟩
          exact ⟨rfl, rfl, rfl, rfl, rfl, fun _ => by rw [hac]; simp [h2],
            fun _ => rfl⟩
    · have hstep :
          msg_handler c [Message.changeCharacter ⟨(P, X), resp0⟩]
            = some (c, [Message.changeCharacter ⟨(P, X), resp0⟩], false) := by
        simp [msg_handler, Message.responded, hcu, h1]
      obtain ⟨ihrel, resp, ihq⟩ := ih resp0 hpcs
        (fun b hb => hf b (by simp [hb]))
      simp only [handleAll, hstep]
      refine ⟨List.Forall₂.cons ?_ ihrel, resp, ihq⟩
      exact ⟨rfl, rfl, rfl, rfl, rfl, fun hP => absurd hP h1, fun _ => rfl⟩

/-- Counting through `ChangeRel`: after a full pass, the number of active
characters of player `P` equals the number of characters of `P` sitting at
the target position `X` before the pass. -/
lemma changeRel_count (P : PlayerID) (X : CharPos)
    {l l' : List CharacterEntity}
    (h : List.Forall₂ (ChangeRel P X) l l') :
    (l'.filter fun c => decide (c.player_id = P) && c.active).length
      = (l.filter fun c => decide (c.player_id = P)
          && decide (c.position = X)).length := by
  induction h with
  | nil => rfl
  | @cons a b l l' hab hrest ih =>
    obtain ⟨hu, hpl, hpos, hhp, hal, hact, hne⟩ := hab
    by_cases hP : a.player_id = P
    · have hbP : b.player_id = P := by rw [hpl]; exact hP
      have hba : b.active = decide (a.position = X) := hact hP
      cases hd : decide (a.position = X) with
      | true => simp [List.filter_cons, hP, hbP, hba, hd, ih]
      | false => simp [List.filter_cons, hP, hbP, hba, hd, ih]
    · have hbP : ¬b.player_id = P := by rw [hpl]; exact hP
      simp [List.filter_cons, hP, hbP, ih]

/-- C3: after every character (of both players, in any order, with distinct
uuids, none having responded yet) has handled a fresh ChangeActiveCharacter
event addressed to (P, X): each character of player P is active exactly
when it sits at position X, all other state and all characters of the other
player are untouched; when exactly one character of P sits at X, exactly
one character of P is active; and the event is never removed from the
queue, only its responded-entities record grows. -/
theorem C3_change_active_character (m : ChangeCharacterMsg) (P : PlayerID)
    (X : CharPos) (chars : List CharacterEntity)
    (hT : m.target = (P, X))
    (hnd : chars.Pairwise fun a b => a.uuid ≠ b.uuid)
    (hfresh : ∀ c ∈ chars, c.uuid ∉ m.responded_entities) :
    List.Forall₂ (ChangeRel P X) chars
        (handleAll chars [Message.changeCharacter m]).1
      ∧ ((chars.filter fun c => decide (c.player_id = P)
            && decide (c.position = X)).length = 1 →
         ((handleAll chars [Message.changeCharacter m]).1.filter
            fun c => decide (c.player_id = P) && c.active).length = 1)
      ∧ ∃ resp, (handleAll chars [Message.changeCharacter m]).2
          = [Message.changeCharacter ⟨(P, X), resp⟩] := by
  obtain ⟨tgt, re⟩ := m
  simp only [ChangeCharacterMsg.mk.injEq] at hT
  subst hT
  obtain ⟨hrel, hq⟩ := handleAll_change P X chars re hnd hfresh
  exact ⟨hrel, fun hone => by rw [changeRel_count P X hrel]; exact hone, hq⟩

/-- Player 2's character at position 0, currently active. -/
def cWoppAct : CharacterEntity := { cWopp with active := true }

/-- Witness for C3: player 1 switches active from position 0 to position 1;
the position-0 character deactivates, the position-1 character activates,
player 2's characters are untouched, and the event stays in the queue. -/
theorem C3_witness :
    List.Forall₂ (ChangeRel .P1 1) [cWact, cW1, cWoppAct, cWopp1]
        (handleAll [cWact, cW1, cWoppAct, cWopp1]
          [Message.changeCharacter ⟨(.P1, 1), []⟩]).1
      ∧ ((handleAll [cWact, cW1, cWoppAct, cWopp1]
            [Message.changeCharacter ⟨(.P1, 1), []⟩]).1.filter
          fun c => decide (c.player_id = .P1) && c.active).length = 1
      ∧ ∃ resp, (handleAll [cWact, cW1, cWoppAct, cWopp1]
            [Message.changeCharacter ⟨(.P1, 1), []⟩]).2
          = [Message.changeCharacter ⟨(.P1, 1), resp⟩] := by
  obtain ⟨h1, h2, h3⟩ := C3_change_active_character ⟨(.P1, 1), []⟩ .P1 1
    [cWact, cW1, cWoppAct, cWopp1] rfl (by decide) (by decide)
  exact ⟨h1, h2 (by decide), h3⟩

/-- C6 counterexample: a freshly constructed pair of characters for player 1
has NO active character (the constructor sets `active := false`), so the
predicate "exactly one character per player has active = true" fails on a
freshly constructed set. -/
theorem C6_counterexample :
    (([CharacterEntity.init "A" .P1 0 0 7 cardW,
       CharacterEntity.init "B" .P1 1 1 7 cardW].filter
        fun c => decide (c.player_id = PlayerID.P1) && c.active).length) ≠ 1 := by
  decide

/-- C6 (amended): a freshly constructed CharacterEntity has `active =
false` (so a fresh set has zero active characters per player, not one), and
the at-most-one-active property per player is guaranteed only after all
characters have handled a ChangeActiveCharacter event: if at most one
character of the addressed player sits at the target position, then at most
one character of that player is active afterwards. -/
theorem C6_active_flag_amended (n : String) (pid : PlayerID) (pos : CharPos)
    (uu char_id : Nat) (card : CharacterCard)
    (m : ChangeCharacterMsg) (P : PlayerID) (X : CharPos)
    (chars : List CharacterEntity)
    (hT : m.target = (P, X))
    (hnd : chars.Pairwise fun a b => a.uuid ≠ b.uuid)
    (hfresh : ∀ c ∈ chars, c.uuid ∉ m.responded_entities) :
    (CharacterEntity.init n pid pos uu char_id card).active = false
      ∧ ((chars.filter fun c => decide (c.player_id = P)
            && decide (c.position = X)).length ≤ 1 →
         ((handleAll chars [Message.changeCharacter m]).1.filter
            fun c => decide (c.player_id = P) && c.active).length ≤ 1) := by
  obtain ⟨tgt, re⟩ := m
  simp only [ChangeCharacterMsg.mk.injEq] at hT
  subst hT
  obtain ⟨hrel, _⟩ := handleAll_change P X chars re hnd hfresh
  exact ⟨rfl, fun hle => by rw [changeRel_count P X hrel]; exact hle⟩

/-- Witness for C6 (amended) at concrete characters. -/
theorem C6_witness :
    (CharacterEntity.init "A" .P1 0 0 7 cardW).active = false
      ∧ (([cWact, cW1].filter fun c => decide (c.player_id = PlayerID.P1)
            && decide (c.position = 1)).length ≤ 1 →
         ((handleAll [cWact, cW1]
              [Message.changeCharacter ⟨(.P1, 1), []⟩]).1.filter
            fun c => decide (c.player_id = PlayerID.P1) && c.active).length ≤ 1) :=
  C6_active_flag_amended "A" .P1 0 0 7 cardW ⟨(.P1, 1), []⟩ .P1 1
    [cWact, cW1] rfl (by decide) (by decide)
end Gisim
